import Mathlib

/-!
Package `signature`: signing and verifying stamped messages.

A shallow embedding of `signature/sign.go`.

* Go values: a byte slice or string is a list of bytes, an `error` is its
  text, a possibly-nil pointer or a possibly-nil `error` is an `Option`.
* The interface `Message` is a record of its three methods over an arbitrary
  message state `σ`.  `Prepare` and `GetTimeStamp` read the state (so `Prepare`
  is a function of the state), `SetTimeStamp` replaces the state and is handed
  the clock reading it would obtain from `time.Now()`.
* What `sign.go` imports from the Go standard library (`crypto/sha256`,
  `crypto/rsa`, `encoding/pem`, `crypto/x509`) is a field of `Lib`; the
  functions of this package are embedded over an arbitrary such library, and
  what a statement needs of the library is an explicit hypothesis.  `time.Since`
  is written out, saturation included.
* The clock is explicit: `Sign` and `Verify` receive the reading `now` of the
  clock during the call; timestamps and `now` are readings of the same clock.
* A Go function returns or panics (`Outcome`).  Each embedded function also
  reports, in program order, the calls it makes (`Call`, logging included), so
  that "returns before hashing" is a statement about its value.
-/

namespace signature

/-! ## Go values -/

/-- Byte slices and Go strings. -/
abbrev Bytes := List Nat

/-- A non-nil Go `error`, identified by the text `Error()` returns. -/
structure Error where
  msg : String
deriving DecidableEq, Repr

/-- Result of running a Go function: a normal return or a run-time panic. -/
inductive Outcome (α : Type) where
  | returned (a : α)
  | panicked (reason : String)
deriving DecidableEq, Repr

/-- The run-time panic raised by dereferencing a nil pointer. -/
def nilDereference : String :=
  "runtime error: invalid memory address or nil pointer dereference"

/-- The run-time panic raised by a failed single-value type assertion. -/
def interfaceConversion : String :=
  "interface conversion: interface is not *rsa.PublicKey"

/-- Calls a function of this package makes, recorded in program order. -/
inductive Call where
  | SetTimeStamp
  | GetTimeStamp
  | Prepare
  | Sum256
  | SignPKCS1v15
  | VerifyPKCS1v15
  | Since
  | Debugf
  | pemDecode
  | ParsePKCS1PrivateKey
  | ParsePKIXPublicKey
  | errorsNew
deriving DecidableEq, Repr

/-- A value together with the calls made while computing it. -/
structure Traced (α : Type) where
  calls : List Call
  out : α
deriving DecidableEq, Repr

/-! ## Package `time` -/

/-- An instant, in nanoseconds on the clock `time.Now()` reads. -/
abbrev Time := Int

/-- A `time.Duration`: a signed 64-bit count of nanoseconds. -/
abbrev Duration := Int

def minDuration : Duration := -(2 ^ 63)

def maxDuration : Duration := 2 ^ 63 - 1

def Nanosecond : Duration := 1

def Microsecond : Duration := 1000 * Nanosecond

def Millisecond : Duration := 1000 * Microsecond

def Second : Duration := 1000 * Millisecond

def Minute : Duration := 60 * Second

/-- Go standard library, `Time.Sub`: the difference `t - u`, replaced by the
largest (smallest) duration when it does not fit in 64 bits. -/
def Sub (t u : Time) : Duration :=
  if t - u > maxDuration then maxDuration
  else if t - u < minDuration then minDuration
  else t - u

/-- Go standard library, `time.Since(t)`, which is `time.Now().Sub(t)`. -/
def Since (now t : Time) : Duration :=
  Sub now t

/-! ## Package `crypto/rsa` and friends -/

/-- Identifiers of hash functions (`crypto.Hash`). -/
inductive Hash where
  | MD5
  | SHA1
  | SHA256
  | SHA512
deriving DecidableEq, Repr

/-- An `rsa.PublicKey`. -/
structure PublicKey where
  N : Nat
  E : Nat
deriving DecidableEq, Repr

/-- An `rsa.PrivateKey`. -/
structure PrivateKey where
  Public : PublicKey
  D : Nat
  Primes : List Nat
deriving DecidableEq, Repr

/-- What `x509.ParsePKIXPublicKey` can hand back in its `interface{}` result. -/
inductive AnyPublicKey where
  | rsa (k : PublicKey)
  | dsa (y : Nat)
  | ecdsa (x y : Nat)
  | ed25519 (k : Bytes)
deriving DecidableEq, Repr

/-- A `pem.Block` (its field `Type` is spelled `Type_`, `Type` being reserved). -/
structure Block where
  Type_ : String
  Headers : List (String × String)
  Bytes : Bytes
deriving DecidableEq, Repr

/-- The standard-library functions `sign.go` imports. -/
structure Lib where
  /-- The function `sha256.Sum256`. -/
  Sum256 : Bytes → Bytes
  /-- The function `rsa.SignPKCS1v15(rand, priv, hash, hashed)`. -/
  SignPKCS1v15 : Bytes → PrivateKey → Hash → Bytes → Except Error Bytes
  /-- The function `rsa.VerifyPKCS1v15(pub, hash, hashed, sig)`; `none` is the nil error. -/
  VerifyPKCS1v15 : PublicKey → Hash → Bytes → Bytes → Option Error
  /-- The function `pem.Decode`: the first block found (or nil) and the rest of the input. -/
  pemDecode : Bytes → Option Block × Bytes
  /-- The function `x509.ParsePKCS1PrivateKey`. -/
  ParsePKCS1PrivateKey : Bytes → Except Error PrivateKey
  /-- The function `x509.ParsePKIXPublicKey`. -/
  ParsePKIXPublicKey : Bytes → Except Error AnyPublicKey

/-! ## `sign.go` -/

/-- The constant `TimeWindow = 5 * time.Minute`. -/
def TimeWindow : Duration := 5 * Minute

/-- The interface `Message`, over message states `σ`. `GetTimeStamp` returns a
possibly-nil `*time.Time` and a possibly-nil error. -/
structure Message (σ : Type) where
  Prepare : σ → Bytes
  GetTimeStamp : σ → Option Time × Option Error
  SetTimeStamp : Time → σ → σ

/-- What `Sign` leaves behind: the message after the call and the pair
`([]byte, error)` it returns. -/
structure Signed (σ : Type) where
  message : σ
  result : Except Error Bytes

/-- The function `Sign`. `rand` is what `rand.Reader` supplies. -/
def Sign {σ : Type} (lib : Lib) (M : Message σ) (now : Time) (rand : Bytes)
    (message : σ) (privateKey : PrivateKey) : Traced (Signed σ) :=
  let message := M.SetTimeStamp now message
  let hashed := lib.Sum256 (M.Prepare message)
  { calls := [Call.SetTimeStamp, Call.Prepare, Call.Sum256, Call.SignPKCS1v15]
    out := { message := message
             result := lib.SignPKCS1v15 rand privateKey Hash.SHA256 hashed } }

/-- The function `timeWindowExpired`; `ts` is a `*time.Time`, dereferenced
without a nil check. -/
def timeWindowExpired (now : Time) (ts : Option Time) : Traced (Outcome Bool) :=
  match ts with
  | none => { calls := [], out := Outcome.panicked nilDereference }
  | some t =>
    let duration := Since now t
    { calls := [Call.Since, Call.Debugf]
      out := if duration > TimeWindow then Outcome.returned true
             else Outcome.returned false }

/-- The function `Verify`. -/
def Verify {σ : Type} (lib : Lib) (M : Message σ) (now : Time) (signature : Bytes)
    (message : σ) (publicKey : PublicKey) : Traced (Outcome (Bool × Option Error)) :=
  match M.GetTimeStamp message with
  | (_, some err) =>
    { calls := [Call.GetTimeStamp], out := Outcome.returned (false, some err) }
  | (time, none) =>
    let expired := timeWindowExpired now time
    match expired.out with
    | Outcome.panicked p =>
      { calls := Call.GetTimeStamp :: expired.calls, out := Outcome.panicked p }
    | Outcome.returned true =>
      { calls := Call.GetTimeStamp :: expired.calls, out := Outcome.returned (false, none) }
    | Outcome.returned false =>
      let hashed := lib.Sum256 (M.Prepare message)
      { calls := Call.GetTimeStamp :: expired.calls
                   ++ [Call.Prepare, Call.Sum256, Call.VerifyPKCS1v15]
        out := match lib.VerifyPKCS1v15 publicKey Hash.SHA256 hashed signature with
               | some err => Outcome.returned (false, some err)
               | none => Outcome.returned (true, none) }

/-- The function `LoadPrivateKeyFromString`. The block `pem.Decode` returns is
dereferenced without a nil check. -/
def LoadPrivateKeyFromString (lib : Lib) (key : Bytes) :
    Traced (Outcome (Except Error PrivateKey)) :=
  match (lib.pemDecode key).1 with
  | none => { calls := [Call.pemDecode], out := Outcome.panicked nilDereference }
  | some block =>
    { calls := [Call.pemDecode, Call.ParsePKCS1PrivateKey]
      out := Outcome.returned (lib.ParsePKCS1PrivateKey block.Bytes) }

/-- The error `errors.New("could not decode public key block")`. -/
def errNoBlock : Error := { msg := "could not decode public key block" }

/-- The function `LoadRSAPublicKey`. The last line is the single-value type
assertion `pub.(*rsa.PublicKey)`, which panics on any other dynamic type. -/
def LoadRSAPublicKey (lib : Lib) (key : Bytes) :
    Traced (Outcome (Except Error PublicKey)) :=
  match (lib.pemDecode key).1 with
  | none =>
    { calls := [Call.pemDecode, Call.Debugf, Call.errorsNew]
      out := Outcome.returned (Except.error errNoBlock) }
  | some block =>
    match lib.ParsePKIXPublicKey block.Bytes with
    | Except.error err =>
      { calls := [Call.pemDecode, Call.Debugf, Call.ParsePKIXPublicKey]
        out := Outcome.returned (Except.error err) }
    | Except.ok (AnyPublicKey.rsa k) =>
      { calls := [Call.pemDecode, Call.Debugf, Call.ParsePKIXPublicKey]
        out := Outcome.returned (Except.ok k) }
    | Except.ok _ =>
      { calls := [Call.pemDecode, Call.Debugf, Call.ParsePKIXPublicKey]
        out := Outcome.panicked interfaceConversion }

/-! ## Properties the statements below refer to -/

/-- The keys `priv` and `pub` form a valid pair for `lib`: whatever
`rsa.SignPKCS1v15` produces under `priv` for a SHA-256 digest,
`rsa.VerifyPKCS1v15` accepts under `pub` for that digest. -/
def ValidKeyPair (lib : Lib) (priv : PrivateKey) (pub : PublicKey) : Prop :=
  ∀ rand hashed sig,
    lib.SignPKCS1v15 rand priv Hash.SHA256 hashed = Except.ok sig →
    lib.VerifyPKCS1v15 pub Hash.SHA256 hashed sig = none

/-- A signature is accepted under `pub` for at most one digest (PKCS#1 v1.5
verification rebuilds the padded digest from the signature and compares). -/
def BindsDigest (lib : Lib) (pub : PublicKey) : Prop :=
  ∀ hashed hashed2 sig,
    lib.VerifyPKCS1v15 pub Hash.SHA256 hashed sig = none →
    lib.VerifyPKCS1v15 pub Hash.SHA256 hashed2 sig = none →
    hashed = hashed2

/-- No error of `x509.ParsePKIXPublicKey` carries the text this package uses
for a missing PEM block (the library's texts start with `x509:` or `asn1:`). -/
def ForeignParseErrors (lib : Lib) : Prop :=
  ∀ der e, lib.ParsePKIXPublicKey der = Except.error e → e ≠ errNoBlock

/-! ## A miniature library and message, used to instantiate the statements -/

/-- Stand-in digest: one byte, the byte sum modulo 33. -/
def sampleSum256 (b : Bytes) : Bytes :=
  [b.sum % 33]

/-- Stand-in signing: textbook RSA on a one-byte digest. -/
def sampleSign (_rand : Bytes) (priv : PrivateKey) (_hash : Hash) (hashed : Bytes) :
    Except Error Bytes :=
  match hashed with
  | [x] =>
    if x < priv.Public.N then Except.ok [x ^ priv.D % priv.Public.N]
    else Except.error { msg := "crypto/rsa: message too long for RSA key size" }
  | _ => Except.error { msg := "crypto/rsa: input must be hashed message" }

/-- Stand-in verification: textbook RSA on a one-byte digest. -/
def sampleVerify (pub : PublicKey) (_hash : Hash) (hashed sig : Bytes) : Option Error :=
  match hashed, sig with
  | [x], [y] =>
    if x < pub.N ∧ y ^ pub.E % pub.N = x then none
    else some { msg := "crypto/rsa: verification error" }
  | _, _ => some { msg := "crypto/rsa: verification error" }

/-- Stand-in PEM decoding: an input starting with `-` (byte 45) is one block
holding the remaining bytes; anything else holds no block. -/
def samplePemDecode (data : Bytes) : Option Block × Bytes :=
  match data with
  | 45 :: rest => (some { Type_ := "PUBLIC KEY", Headers := [], Bytes := rest }, [])
  | _ => (none, data)

/-- Stand-in PKCS#1 parsing: the three bytes `N, E, D`. -/
def sampleParsePKCS1PrivateKey (der : Bytes) : Except Error PrivateKey :=
  match der with
  | [n, e, d] => Except.ok { Public := { N := n, E := e }, D := d, Primes := [] }
  | _ => Except.error { msg := "asn1: syntax error: data truncated" }

/-- Stand-in PKIX parsing: `1, N, E` is an RSA key, `2, X, Y` an ECDSA key. -/
def sampleParsePKIXPublicKey (der : Bytes) : Except Error AnyPublicKey :=
  match der with
  | [1, n, e] => Except.ok (AnyPublicKey.rsa { N := n, E := e })
  | [2, x, y] => Except.ok (AnyPublicKey.ecdsa x y)
  | _ => Except.error { msg := "asn1: syntax error: data truncated" }

def sampleLib : Lib :=
  { Sum256 := sampleSum256
    SignPKCS1v15 := sampleSign
    VerifyPKCS1v15 := sampleVerify
    pemDecode := samplePemDecode
    ParsePKCS1PrivateKey := sampleParsePKCS1PrivateKey
    ParsePKIXPublicKey := sampleParsePKIXPublicKey }

/-- The public key `N = 3 * 11`, `E = 3`. -/
def samplePublicKey : PublicKey :=
  { N := 33, E := 3 }

/-- The matching private key, `D = 7` (`3 * 7 = 1` modulo `lcm 2 10`). -/
def samplePrivateKey : PrivateKey :=
  { Public := samplePublicKey, D := 7, Primes := [3, 11] }

/-- A message type implementing the interface: a payload and an optional stamp. -/
structure StampedMessage where
  Message : Bytes
  TimeStamp : Option Time
deriving DecidableEq, Repr

/-- The methods of `StampedMessage`: the canonical bytes are the payload
followed by the stamp, reading an unset stamp is an error. -/
def stamped : Message StampedMessage :=
  { Prepare := fun m =>
      match m.TimeStamp with
      | none => m.Message
      | some t => m.Message ++ [t.toNat]
    GetTimeStamp := fun m =>
      match m.TimeStamp with
      | none => (none, some { msg := "timestamp not set" })
      | some t => (some t, none)
    SetTimeStamp := fun now m => { m with TimeStamp := some now } }

/-- The payload `"string to sign"` of the tests, not yet stamped. -/
def stringToSign : StampedMessage :=
  { Message := [115, 116, 114, 105, 110, 103, 32, 116, 111, 32, 115, 105, 103, 110]
    TimeStamp := none }

/-- The sample message stamped at time 2, with the payload then replaced by
`"AltMessage to sign"` as in the tests. -/
def altMessage : StampedMessage :=
  { Message := [65, 108, 116, 77, 101, 115, 115, 97, 103, 101, 32, 116, 111, 32,
                115, 105, 103, 110]
    TimeStamp := some 2 }

/-! ## Auxiliary facts -/

theorem timeWindow_eq : TimeWindow = 300000000000 := by
  decide

theorem sub_gt_window (now t : Int) :
    (if now - t > 2 ^ 63 - 1 then (2 : Int) ^ 63 - 1
      else if now - t < -(2 ^ 63) then -(2 ^ 63) else now - t) > 300000000000
      ↔ now - t > 300000000000 := by
  have e : (2 : Int) ^ 63 = 9223372036854775808 := by norm_num
  rw [e]
  split_ifs <;> omega

theorem since_gt_window (now t : Time) : Since now t > TimeWindow ↔ now - t > TimeWindow := by
  rw [timeWindow_eq]
  exact sub_gt_window now t

theorem timeWindowExpired_some (now t : Time) :
    timeWindowExpired now (some t) =
      { calls := [Call.Since, Call.Debugf]
        out := Outcome.returned (decide (now - t > TimeWindow)) } := by
  unfold timeWindowExpired
  by_cases h : now - t > TimeWindow
  · simp [(since_gt_window now t).2 h, h]
  · have h2 : ¬ Since now t > TimeWindow := fun hc => h ((since_gt_window now t).1 hc)
    simp [h2, h]

/-- `Verify` on a message whose timestamp is read without error. -/
theorem Verify_stamped {σ : Type} (lib : Lib) (M : Message σ) (now : Time)
    (signature : Bytes) (message : σ) (publicKey : PublicKey) (ts : Time)
    (hget : M.GetTimeStamp message = (some ts, none)) :
    Verify lib M now signature message publicKey =
      if now - ts > TimeWindow then
        { calls := [Call.GetTimeStamp, Call.Since, Call.Debugf]
          out := Outcome.returned (false, none) }
      else
        { calls := [Call.GetTimeStamp, Call.Since, Call.Debugf,
                    Call.Prepare, Call.Sum256, Call.VerifyPKCS1v15]
          out := match lib.VerifyPKCS1v15 publicKey Hash.SHA256
                    (lib.Sum256 (M.Prepare message)) signature with
                 | some err => Outcome.returned (false, some err)
                 | none => Outcome.returned (true, none) } := by
  unfold Verify
  rw [hget]
  simp only [timeWindowExpired_some]
  by_cases h : now - ts > TimeWindow
  · rw [if_pos h, decide_eq_true h]
  · rw [if_neg h, decide_eq_false h]
    rfl

/-- `Verify` on a message whose `GetTimeStamp` returns an error. -/
theorem Verify_unstamped {σ : Type} (lib : Lib) (M : Message σ) (now : Time)
    (signature : Bytes) (message : σ) (publicKey : PublicKey)
    (t : Option Time) (err : Error)
    (hget : M.GetTimeStamp message = (t, some err)) :
    Verify lib M now signature message publicKey =
      { calls := [Call.GetTimeStamp], out := Outcome.returned (false, some err) } := by
  unfold Verify
  rw [hget]

/-- `Verify` on a message whose `GetTimeStamp` returns a nil pointer and a nil
error: the nil dereference in `timeWindowExpired` panics. -/
theorem Verify_nil_timestamp {σ : Type} (lib : Lib) (M : Message σ) (now : Time)
    (signature : Bytes) (message : σ) (publicKey : PublicKey)
    (hget : M.GetTimeStamp message = (none, none)) :
    Verify lib M now signature message publicKey =
      { calls := [Call.GetTimeStamp], out := Outcome.panicked nilDereference } := by
  unfold Verify
  rw [hget]
  rfl

/-- Textbook RSA modulo 33 with exponents 7 and 3 inverts on every residue. -/
theorem sample_roundtrip (x : Nat) (hx : x < 33) : (x ^ 7 % 33) ^ 3 % 33 = x := by
  interval_cases x <;> rfl

theorem sample_validKeyPair : ValidKeyPair sampleLib samplePrivateKey samplePublicKey := by
  intro rand hashed sig hs
  show sampleVerify samplePublicKey Hash.SHA256 hashed sig = none
  have hs2 : sampleSign rand samplePrivateKey Hash.SHA256 hashed = Except.ok sig := hs
  match hashed, hs2 with
  | [], h => simp [sampleSign] at h
  | _ :: _ :: _, h => simp [sampleSign] at h
  | [x], h =>
    by_cases hx : x < 33
    · simp only [sampleSign, samplePrivateKey, samplePublicKey, if_pos hx,
        Except.ok.injEq] at h
      subst h
      simp only [sampleVerify, samplePublicKey]
      rw [if_pos ⟨hx, sample_roundtrip x hx⟩]
    · simp [sampleSign, samplePrivateKey, samplePublicKey, hx] at h

theorem sample_bindsDigest : BindsDigest sampleLib samplePublicKey := by
  intro hashed hashed2 sig h1 h2
  have e1 : sampleVerify samplePublicKey Hash.SHA256 hashed sig = none := h1
  have e2 : sampleVerify samplePublicKey Hash.SHA256 hashed2 sig = none := h2
  have key : ∀ d : Bytes, sampleVerify samplePublicKey Hash.SHA256 d sig = none →
      ∃ y, sig = [y] ∧ d = [y ^ 3 % 33] := by
    intro d hd
    unfold sampleVerify at hd
    split at hd
    · rename_i x y
      by_cases hc : x < samplePublicKey.N ∧ y ^ samplePublicKey.E % samplePublicKey.N = x
      · exact ⟨y, rfl, by rw [← hc.2]; rfl⟩
      · rw [if_neg hc] at hd
        simp at hd
    · simp at hd
  obtain ⟨y1, hy1, hd1⟩ := key hashed e1
  obtain ⟨y2, hy2, hd2⟩ := key hashed2 e2
  rw [hy1] at hy2
  simp only [List.cons.injEq, and_true] at hy2
  rw [hd1, hd2, hy2]

theorem sample_foreignParseErrors : ForeignParseErrors sampleLib := by
  intro der e h
  have h2 : sampleParsePKIXPublicKey der = Except.error e := h
  unfold sampleParsePKIXPublicKey at h2
  split at h2
  · simp at h2
  · simp at h2
  · simp only [Except.error.injEq] at h2
    rw [← h2]
    decide

/-! ## `timeWindowExpired` -/

/-- C6: for every timestamp `ts` and clock reading `now`, `timeWindowExpired`
returns, and returns true exactly when `now - ts` is strictly greater than
`300 * 10^9` nanoseconds; an elapsed time of exactly five minutes is fresh, and
so is every timestamp in the future of `now`. -/
theorem timeWindowExpired_iff (now ts : Time) :
    (timeWindowExpired now (some ts)).out
        = Outcome.returned (decide (now - ts > 300 * 10 ^ 9))
    ∧ ((timeWindowExpired now (some ts)).out = Outcome.returned true
        ↔ now - ts > 300 * 10 ^ 9)
    ∧ (now - ts = 300 * 10 ^ 9 →
        (timeWindowExpired now (some ts)).out = Outcome.returned false)
    ∧ (now < ts → (timeWindowExpired now (some ts)).out = Outcome.returned false) := by
  have hw : TimeWindow = 300 * 10 ^ 9 := by decide
  have h0 : (timeWindowExpired now (some ts)).out
      = Outcome.returned (decide (now - ts > 300 * 10 ^ 9)) := by
    rw [timeWindowExpired_some, hw]
  refine ⟨h0, ?_, ?_, ?_⟩
  · rw [h0]
    simp
  · intro h
    rw [h0, h]
    simp
  · intro h
    rw [h0]
    have hneg : ¬ (now - ts > 300 * 10 ^ 9) := by
      norm_num
      linarith
    rw [decide_eq_false hneg]

/-! ## `Verify` -/

/-- C3: if the message's `GetTimeStamp` returns an error, `Verify` returns
`(false, err)` with that same error, having called nothing but `GetTimeStamp`:
neither `Prepare`, nor the hash, nor the RSA verification. -/
theorem Verify_missing_timestamp {σ : Type} (lib : Lib) (M : Message σ) (now : Time)
    (signature : Bytes) (message : σ) (publicKey : PublicKey)
    (t : Option Time) (err : Error)
    (hget : M.GetTimeStamp message = (t, some err)) :
    (Verify lib M now signature message publicKey).out = Outcome.returned (false, some err)
    ∧ (Verify lib M now signature message publicKey).calls = [Call.GetTimeStamp] := by
  unfold Verify
  rw [hget]
  exact ⟨rfl, rfl⟩

/-- Instance of C3: verifying the unstamped sample message. -/
theorem Verify_missing_timestamp_witness :
    stamped.GetTimeStamp stringToSign = (none, some { msg := "timestamp not set" })
    ∧ (Verify sampleLib stamped 0 [9] stringToSign samplePublicKey).out
        = Outcome.returned (false, some { msg := "timestamp not set" })
    ∧ (Verify sampleLib stamped 0 [9] stringToSign samplePublicKey).calls
        = [Call.GetTimeStamp] :=
  ⟨rfl, Verify_missing_timestamp sampleLib stamped 0 [9] stringToSign samplePublicKey
    none { msg := "timestamp not set" } rfl⟩

/-- C4: if `GetTimeStamp` succeeds with a timestamp more than five minutes
before `now`, `Verify` returns exactly `(false, nil)` whatever the signature,
after `GetTimeStamp` and the elapsed-time check only: no `Prepare`, no hash, no
RSA verification. -/
theorem Verify_expired {σ : Type} (lib : Lib) (M : Message σ) (now : Time)
    (signature : Bytes) (message : σ) (publicKey : PublicKey) (ts : Time)
    (hget : M.GetTimeStamp message = (some ts, none))
    (hold : now - ts > 5 * (60 * (10 : Int) ^ 9)) :
    (Verify lib M now signature message publicKey).out = Outcome.returned (false, none)
    ∧ (Verify lib M now signature message publicKey).calls
        = [Call.GetTimeStamp, Call.Since, Call.Debugf]
    ∧ Call.Prepare ∉ (Verify lib M now signature message publicKey).calls
    ∧ Call.Sum256 ∉ (Verify lib M now signature message publicKey).calls
    ∧ Call.VerifyPKCS1v15 ∉ (Verify lib M now signature message publicKey).calls := by
  have hw : TimeWindow = 5 * (60 * (10 : Int) ^ 9) := by decide
  have hexp : timeWindowExpired now (some ts)
      = { calls := [Call.Since, Call.Debugf], out := Outcome.returned true } := by
    rw [timeWindowExpired_some, hw, decide_eq_true hold]
  have hv : Verify lib M now signature message publicKey
      = { calls := [Call.GetTimeStamp, Call.Since, Call.Debugf]
          out := Outcome.returned (false, none) } := by
    unfold Verify
    rw [hget]
    simp only [hexp]
  rw [hv]
  simp

/-- Instance of C4: a stamp 301 seconds old, with the signature that was valid. -/
theorem Verify_expired_witness :
    stamped.GetTimeStamp { Message := [65], TimeStamp := some 2 } = (some 2, none)
    ∧ (301 * 10 ^ 9 + 2 : Int) - 2 > 5 * (60 * (10 : Int) ^ 9)
    ∧ (Verify sampleLib stamped (301 * 10 ^ 9 + 2) [1]
        { Message := [65], TimeStamp := some 2 } samplePublicKey).out
        = Outcome.returned (false, none) :=
  ⟨rfl, by decide,
    (Verify_expired sampleLib stamped (301 * 10 ^ 9 + 2) [1]
      { Message := [65], TimeStamp := some 2 } samplePublicKey 2 rfl (by decide)).1⟩

/-- C5: `Verify` returns true exactly when `GetTimeStamp` succeeds,
`timeWindowExpired` is false for the timestamp it returned, and
`rsa.VerifyPKCS1v15` accepts the signature over the SHA-256 digest of
`Prepare()`; a true result always comes with a nil error, and a non-nil error
always comes with a false result. -/
theorem Verify_true_iff {σ : Type} (lib : Lib) (M : Message σ) (now : Time)
    (signature : Bytes) (message : σ) (publicKey : PublicKey) :
    ((∃ e, (Verify lib M now signature message publicKey).out = Outcome.returned (true, e))
      ↔ ∃ ts, M.GetTimeStamp message = (some ts, none)
          ∧ (timeWindowExpired now (some ts)).out = Outcome.returned false
          ∧ lib.VerifyPKCS1v15 publicKey Hash.SHA256
              (lib.Sum256 (M.Prepare message)) signature = none)
    ∧ (∀ e, (Verify lib M now signature message publicKey).out = Outcome.returned (true, e)
          → e = none)
    ∧ (∀ b e, (Verify lib M now signature message publicKey).out
          = Outcome.returned (b, some e) → b = false) := by
  rcases hget : M.GetTimeStamp message with ⟨t, e⟩
  cases e with
  | some err =>
    rw [Verify_unstamped lib M now signature message publicKey t err hget]
    simp
  | none =>
    cases t with
    | none =>
      rw [Verify_nil_timestamp lib M now signature message publicKey hget]
      simp
    | some ts =>
      rw [Verify_stamped lib M now signature message publicKey ts hget]
      simp only [timeWindowExpired_some]
      by_cases h : now - ts > TimeWindow
      · rw [if_pos h]
        refine ⟨⟨?_, ?_⟩, ?_, ?_⟩
        · rintro ⟨e, he⟩
          simp at he
        · rintro ⟨ts1, h1, h2, _⟩
          simp only [Prod.mk.injEq, Option.some.injEq, and_true] at h1
          subst h1
          rw [decide_eq_true h] at h2
          simp at h2
        · intro e he
          simp at he
        · intro b e he
          simp at he
      · rw [if_neg h]
        cases hv : lib.VerifyPKCS1v15 publicKey Hash.SHA256
            (lib.Sum256 (M.Prepare message)) signature with
        | none =>
          refine ⟨⟨fun _ => ⟨ts, rfl, ?_, rfl⟩, fun _ => ⟨none, rfl⟩⟩, ?_, ?_⟩
          · rw [decide_eq_false h]
          · intro e he
            simp at he
            exact he.symm
          · intro b e he
            simp at he
        | some err =>
          refine ⟨⟨?_, ?_⟩, ?_, ?_⟩
          · rintro ⟨e, he⟩
            simp at he
          · rintro ⟨ts1, _, _, h3⟩
            simp at h3
          · intro e he
            simp at he
          · intro b e he
            simp at he
            exact he.1

/-! ## `Sign` -/

/-- C7: `Sign` calls `SetTimeStamp` before `Prepare`: what it returns is the
PKCS#1 v1.5 signature (or error) for the SHA-256 digest of the bytes `Prepare`
yields on the stamped message, and the message is left stamped whether or not
the RSA signing succeeds; two messages that differ only in what the stamp
overwrites are signed alike. -/
theorem Sign_stamps_before_digest {σ : Type} (lib : Lib) (M : Message σ) (now : Time)
    (rand : Bytes) (message : σ) (privateKey : PrivateKey) :
    (Sign lib M now rand message privateKey).calls
        = [Call.SetTimeStamp, Call.Prepare, Call.Sum256, Call.SignPKCS1v15]
    ∧ (Sign lib M now rand message privateKey).out.result
        = lib.SignPKCS1v15 rand privateKey Hash.SHA256
            (lib.Sum256 (M.Prepare (M.SetTimeStamp now message)))
    ∧ (Sign lib M now rand message privateKey).out.message = M.SetTimeStamp now message
    ∧ ∀ earlier : σ, M.SetTimeStamp now earlier = M.SetTimeStamp now message →
        Sign lib M now rand earlier privateKey = Sign lib M now rand message privateKey := by
  refine ⟨rfl, rfl, rfl, ?_⟩
  intro earlier h
  unfold Sign
  simp only [h]

/-! ## `Sign` followed by `Verify` -/

/-- C1, as amended: for every message and every valid key pair, if `Sign`
returns a signature without error, and `GetTimeStamp` on the signed, unmodified
message returns a timestamp that is at most five minutes old when `Verify`
runs, then `Verify` returns `(true, nil)`. -/
theorem Verify_Sign_fresh {σ : Type} (lib : Lib) (M : Message σ) (t now : Time)
    (rand : Bytes) (message : σ) (priv : PrivateKey) (pub : PublicKey)
    (sig : Bytes) (ts : Time)
    (hkeys : ValidKeyPair lib priv pub)
    (hsig : (Sign lib M t rand message priv).out.result = Except.ok sig)
    (hget : M.GetTimeStamp (Sign lib M t rand message priv).out.message = (some ts, none))
    (hfresh : now - ts ≤ TimeWindow) :
    (Verify lib M now sig (Sign lib M t rand message priv).out.message pub).out
      = Outcome.returned (true, none) := by
  have hnot : ¬ now - ts > TimeWindow := not_lt.mpr hfresh
  have hacc : lib.VerifyPKCS1v15 pub Hash.SHA256
      (lib.Sum256 (M.Prepare (Sign lib M t rand message priv).out.message)) sig = none :=
    hkeys rand _ sig hsig
  rw [Verify_stamped lib M now sig _ pub ts hget, if_neg hnot]
  simp only [hacc]

/-- Instance of C1 as amended: the sample message signed at time 2 and verified
exactly five minutes later. -/
theorem Verify_Sign_fresh_witness :
    ValidKeyPair sampleLib samplePrivateKey samplePublicKey
    ∧ (Sign sampleLib stamped 2 [] stringToSign samplePrivateKey).out.result = Except.ok [9]
    ∧ (Verify sampleLib stamped (2 + 300 * 10 ^ 9) [9]
        (Sign sampleLib stamped 2 [] stringToSign samplePrivateKey).out.message
        samplePublicKey).out = Outcome.returned (true, none) :=
  ⟨sample_validKeyPair, rfl,
    Verify_Sign_fresh sampleLib stamped 2 (2 + 300 * 10 ^ 9) [] stringToSign
      samplePrivateKey samplePublicKey [9] 2 sample_validKeyPair rfl rfl (by decide)⟩

/-- C1 as stated fails: the sample message is signed at time 2 with a valid key
pair, the signature `[9]` is returned without error, and `Verify` on the same
unmodified message 301 seconds later returns `(false, nil)`, not `(true, nil)`. -/
theorem Verify_Sign_stale_counterexample :
    ValidKeyPair sampleLib samplePrivateKey samplePublicKey
    ∧ (Sign sampleLib stamped 2 [] stringToSign samplePrivateKey).out.result = Except.ok [9]
    ∧ (Verify sampleLib stamped (2 + 301 * 10 ^ 9) [9]
        (Sign sampleLib stamped 2 [] stringToSign samplePrivateKey).out.message
        samplePublicKey).out = Outcome.returned (false, none)
    ∧ (Verify sampleLib stamped (2 + 301 * 10 ^ 9) [9]
        (Sign sampleLib stamped 2 [] stringToSign samplePrivateKey).out.message
        samplePublicKey).out ≠ Outcome.returned (true, none) :=
  ⟨sample_validKeyPair, rfl, by decide, by decide⟩

/-- C2, as amended: for every message and every valid key pair whose
verification accepts a signature for at most one digest, if `Sign` returned
`sig` and the message is then changed so that the SHA-256 digest of its
canonical bytes differs, `Verify` of `sig` on the modified message returns
false (provided `GetTimeStamp` does not return a nil timestamp with a nil
error).  The error that comes with it is nil exactly when the timestamp was
read and is more than five minutes old; otherwise it is non-nil. -/
theorem Verify_tampered {σ : Type} (lib : Lib) (M : Message σ) (t now : Time)
    (rand : Bytes) (message modified : σ) (priv : PrivateKey) (pub : PublicKey)
    (sig : Bytes)
    (hkeys : ValidKeyPair lib priv pub)
    (hbind : BindsDigest lib pub)
    (hsig : (Sign lib M t rand message priv).out.result = Except.ok sig)
    (hdiff : lib.Sum256 (M.Prepare modified)
      ≠ lib.Sum256 (M.Prepare (Sign lib M t rand message priv).out.message))
    (hts : M.GetTimeStamp modified ≠ (none, none)) :
    ∃ e, (Verify lib M now sig modified pub).out = Outcome.returned (false, e)
      ∧ (e = none ↔ ∃ ts, M.GetTimeStamp modified = (some ts, none)
                        ∧ now - ts > TimeWindow) := by
  have hacc : lib.VerifyPKCS1v15 pub Hash.SHA256
      (lib.Sum256 (M.Prepare (Sign lib M t rand message priv).out.message)) sig = none :=
    hkeys rand _ sig hsig
  rcases hget : M.GetTimeStamp modified with ⟨ot, oe⟩
  cases oe with
  | some err =>
    refine ⟨some err, ?_, ?_⟩
    · rw [Verify_unstamped lib M now sig modified pub ot err hget]
    · constructor
      · intro h
        simp at h
      · rintro ⟨ts, h, _⟩
        simp at h
  | none =>
    cases ot with
    | none => exact absurd hget hts
    | some ts =>
      rw [Verify_stamped lib M now sig modified pub ts hget]
      by_cases hexp : now - ts > TimeWindow
      · rw [if_pos hexp]
        exact ⟨none, rfl, fun _ => ⟨ts, rfl, hexp⟩, fun _ => rfl⟩
      · rw [if_neg hexp]
        cases hv : lib.VerifyPKCS1v15 pub Hash.SHA256
            (lib.Sum256 (M.Prepare modified)) sig with
        | none => exact absurd (hbind _ _ sig hv hacc) hdiff
        | some err =>
          refine ⟨some err, rfl, ?_⟩
          constructor
          · intro h
            simp at h
          · rintro ⟨ts1, h1, h2⟩
            simp only [Prod.mk.injEq, Option.some.injEq, and_true] at h1
            subst h1
            exact absurd h2 hexp

/-- Instance of C2 as amended: the sample message signed at time 2, its payload
replaced, verified 100 seconds later: false with the RSA verification error. -/
theorem Verify_tampered_witness :
    (Sign sampleLib stamped 2 [] stringToSign samplePrivateKey).out.result = Except.ok [9]
    ∧ stamped.Prepare altMessage
        ≠ stamped.Prepare (Sign sampleLib stamped 2 [] stringToSign samplePrivateKey).out.message
    ∧ (∃ e, (Verify sampleLib stamped (2 + 100 * 10 ^ 9) [9] altMessage samplePublicKey).out
          = Outcome.returned (false, e)
        ∧ (e = none ↔ ∃ ts, stamped.GetTimeStamp altMessage = (some ts, none)
                          ∧ (2 + 100 * 10 ^ 9 : Int) - ts > TimeWindow))
    ∧ (Verify sampleLib stamped (2 + 100 * 10 ^ 9) [9] altMessage samplePublicKey).out
        = Outcome.returned (false, some { msg := "crypto/rsa: verification error" }) :=
  ⟨rfl, by decide,
    Verify_tampered sampleLib stamped 2 (2 + 100 * 10 ^ 9) [] stringToSign altMessage
      samplePrivateKey samplePublicKey [9] sample_validKeyPair sample_bindsDigest rfl
      (by decide) (by decide),
    by decide⟩

/-- C2 as stated fails: the sample message is signed at time 2 with a valid key
pair, its canonical bytes are then changed, and `Verify` 301 seconds after the
stamp returns false with a nil error. -/
theorem Verify_tampered_stale_counterexample :
    ValidKeyPair sampleLib samplePrivateKey samplePublicKey
    ∧ (Sign sampleLib stamped 2 [] stringToSign samplePrivateKey).out.result = Except.ok [9]
    ∧ stamped.Prepare altMessage
        ≠ stamped.Prepare (Sign sampleLib stamped 2 [] stringToSign samplePrivateKey).out.message
    ∧ (Verify sampleLib stamped (2 + 301 * 10 ^ 9) [9] altMessage samplePublicKey).out
        = Outcome.returned (false, none) :=
  ⟨sample_validKeyPair, rfl, by decide, by decide⟩

/-! ## Key loaders -/

/-- `LoadPrivateKeyFromString` on a decodable block returns whatever
`x509.ParsePKCS1PrivateKey` returns for the block bytes, errors included. -/
theorem LoadPrivateKeyFromString_block (lib : Lib) (key : Bytes) (block : Block)
    (hblock : (lib.pemDecode key).1 = some block) :
    (LoadPrivateKeyFromString lib key).out
      = Outcome.returned (lib.ParsePKCS1PrivateKey block.Bytes) := by
  unfold LoadPrivateKeyFromString
  rw [hblock]

/-- C9, what the code does where the claim fails: when `pem.Decode` finds no
block in the input, `LoadPrivateKeyFromString` dereferences the nil block and
panics, before any parsing; it returns neither a key nor an error. -/
theorem LoadPrivateKeyFromString_noBlock_panics (lib : Lib) (key : Bytes)
    (hnone : (lib.pemDecode key).1 = none) :
    LoadPrivateKeyFromString lib key
        = { calls := [Call.pemDecode], out := Outcome.panicked nilDereference }
    ∧ ∀ r, (LoadPrivateKeyFromString lib key).out ≠ Outcome.returned r := by
  have h : LoadPrivateKeyFromString lib key
      = { calls := [Call.pemDecode], out := Outcome.panicked nilDereference } := by
    unfold LoadPrivateKeyFromString
    rw [hnone]
  rw [h]
  exact ⟨rfl, fun r hr => by simp at hr⟩

/-- Instance of C9: the empty string. -/
theorem LoadPrivateKeyFromString_noBlock_panics_witness :
    (sampleLib.pemDecode []).1 = none
    ∧ (LoadPrivateKeyFromString sampleLib []).out = Outcome.panicked nilDereference :=
  ⟨rfl, by rw [(LoadPrivateKeyFromString_noBlock_panics sampleLib [] rfl).1]⟩

/-- C8, what the code does where the claim fails: when the PEM block parses as
a PKIX public key that is not an RSA key, the type assertion in
`LoadRSAPublicKey` panics; the function returns neither a key nor an error. -/
theorem LoadRSAPublicKey_nonRSA_panics (lib : Lib) (key : Bytes) (block : Block)
    (k : AnyPublicKey)
    (hblock : (lib.pemDecode key).1 = some block)
    (hparse : lib.ParsePKIXPublicKey block.Bytes = Except.ok k)
    (hk : ∀ r, k ≠ AnyPublicKey.rsa r) :
    (LoadRSAPublicKey lib key).out = Outcome.panicked interfaceConversion
    ∧ ∀ r, (LoadRSAPublicKey lib key).out ≠ Outcome.returned r := by
  have h : (LoadRSAPublicKey lib key).out = Outcome.panicked interfaceConversion := by
    unfold LoadRSAPublicKey
    rw [hblock]
    show (match lib.ParsePKIXPublicKey block.Bytes with
      | Except.error err =>
        ({ calls := [Call.pemDecode, Call.Debugf, Call.ParsePKIXPublicKey]
           out := Outcome.returned (Except.error err) } :
          Traced (Outcome (Except Error PublicKey)))
      | Except.ok (AnyPublicKey.rsa k) =>
        { calls := [Call.pemDecode, Call.Debugf, Call.ParsePKIXPublicKey]
          out := Outcome.returned (Except.ok k) }
      | Except.ok _ =>
        { calls := [Call.pemDecode, Call.Debugf, Call.ParsePKIXPublicKey]
          out := Outcome.panicked interfaceConversion }).out
      = Outcome.panicked interfaceConversion
    rw [hparse]
    cases k with
    | rsa r => exact absurd rfl (hk r)
    | dsa y => rfl
    | ecdsa x y => rfl
    | ed25519 b => rfl
  rw [h]
  exact ⟨rfl, fun r hr => by simp at hr⟩

/-- Instance of C8: a block holding an ECDSA key. -/
theorem LoadRSAPublicKey_nonRSA_panics_witness :
    (sampleLib.pemDecode [45, 2, 5, 7]).1
        = some { Type_ := "PUBLIC KEY", Headers := [], Bytes := [2, 5, 7] }
    ∧ sampleLib.ParsePKIXPublicKey [2, 5, 7] = Except.ok (AnyPublicKey.ecdsa 5 7)
    ∧ (LoadRSAPublicKey sampleLib [45, 2, 5, 7]).out = Outcome.panicked interfaceConversion :=
  ⟨rfl, rfl,
    (LoadRSAPublicKey_nonRSA_panics sampleLib [45, 2, 5, 7]
      { Type_ := "PUBLIC KEY", Headers := [], Bytes := [2, 5, 7] } (AnyPublicKey.ecdsa 5 7)
      rfl rfl (fun r hr => by simp at hr)).1⟩

/-- C10: when `pem.Decode` yields no block, `LoadRSAPublicKey` returns no key
and the fixed error "could not decode public key block", without calling
`x509.ParsePKIXPublicKey`; and (the library never producing that text itself)
no error returned for an input whose block does decode equals it. -/
theorem LoadRSAPublicKey_noBlock (lib : Lib) (key : Bytes)
    (hnone : (lib.pemDecode key).1 = none)
    (hlib : ForeignParseErrors lib) :
    (LoadRSAPublicKey lib key).out
        = Outcome.returned (Except.error { msg := "could not decode public key block" })
    ∧ (LoadRSAPublicKey lib key).calls = [Call.pemDecode, Call.Debugf, Call.errorsNew]
    ∧ Call.ParsePKIXPublicKey ∉ (LoadRSAPublicKey lib key).calls
    ∧ ∀ (other : Bytes) (block : Block) (e : Error),
        (lib.pemDecode other).1 = some block →
        (LoadRSAPublicKey lib other).out = Outcome.returned (Except.error e) →
        e ≠ { msg := "could not decode public key block" } := by
  have h : LoadRSAPublicKey lib key
      = { calls := [Call.pemDecode, Call.Debugf, Call.errorsNew]
          out := Outcome.returned (Except.error errNoBlock) } := by
    unfold LoadRSAPublicKey
    rw [hnone]
  refine ⟨by rw [h]; rfl, by rw [h], by rw [h]; decide, ?_⟩
  intro other block e hblock hout
  unfold LoadRSAPublicKey at hout
  rw [hblock] at hout
  simp only at hout
  cases hp : lib.ParsePKIXPublicKey block.Bytes with
  | error err =>
    rw [hp] at hout
    simp only [Outcome.returned.injEq, Except.error.injEq] at hout
    rw [← hout]
    exact hlib block.Bytes err hp
  | ok k =>
    rw [hp] at hout
    cases k <;> simp at hout

/-- Instance of C10: the empty string. -/
theorem LoadRSAPublicKey_noBlock_witness :
    (sampleLib.pemDecode []).1 = none
    ∧ ForeignParseErrors sampleLib
    ∧ (LoadRSAPublicKey sampleLib []).out
        = Outcome.returned (Except.error { msg := "could not decode public key block" }) :=
  ⟨rfl, sample_foreignParseErrors,
    (LoadRSAPublicKey_noBlock sampleLib [] rfl sample_foreignParseErrors).1⟩

end signature
